import Mathlib

/-!
Shallow embedding of `src/lib/goals.js` (mineflayer-pathfinder goal types).

Numbers: JS numbers are IEEE doubles.  All arithmetic that the claims below
depend on is exact in double precision (small integers, halves, and the
literal constants `Number.MIN_VALUE` and `Math.SQRT2`), so we model JS
numbers as exact rationals `ℚ` (or reals `ℝ` where the code calls
transcendental functions: `Math.atan2`, `Math.sqrt`).  The float constants
are embedded by their exact rational values.
-/

set_option maxHeartbeats 1000000

/-- Integer 3D vector: the block coordinates of a search node. -/
structure Vec3I where
  x : ℤ
  y : ℤ
  z : ℤ
deriving DecidableEq, Repr

/-- Rational 3D vector: an entity position (JS doubles modelled exactly). -/
structure Vec3Q where
  x : ℚ
  y : ℚ
  z : ℚ
deriving DecidableEq, Repr

/-- Real 3D vector: continuous geometry in the placement goal. -/
structure Vec3R where
  x : ℝ
  y : ℝ
  z : ℝ

/-- `Vec3.prototype.floored()` from the vec3 collaborator library. -/
def vec3Floored (p : Vec3Q) : Vec3I := ⟨⌊p.x⌋, ⌊p.y⌋, ⌊p.z⌋⟩

/-- Exact value of the IEEE-754 double `Number.MIN_VALUE` (the smallest
positive double, `2 ^ (-1074)`), the seed of `GoalCompositeAll.heuristic`. -/
def jsMinValue : ℚ := 1 / 2 ^ 1074

/-- Exact value of the IEEE-754 double `Number.MAX_VALUE`, the seed of
`GoalCompositeAny.heuristic`. -/
def jsMaxValue : ℚ := 2 ^ 1024 - 2 ^ 971

/-- Exact value of the IEEE-754 double `Math.SQRT2`. -/
def jsSQRT2 : ℚ := 6369051672525773 / 4503599627370496

/-- `distanceXZ(dx, dz)` from goals.js: octile horizontal metric. -/
def distanceXZ (dx dz : ℚ) : ℚ :=
  let ax := |dx|
  let az := |dz|
  |ax - az| + min ax az * jsSQRT2

/-- The goal capability contract (`heuristic`, `isEnd`, `hasChanged`), as a
record of pure functions: used as the element type of the child lists of the
composite goals.  `hasChanged` is a plain `Bool` because the children relevant
to the claims (`GoalBlock`, `GoalInvert` of such) never mutate. -/
structure SimpleGoal where
  heuristic : Vec3I → ℚ
  isEnd : Vec3I → Bool
  hasChanged : Bool

/-- `new GoalBlock(x, y, z)` together with its two methods. -/
def GoalBlock.make (x y z : ℚ) : SimpleGoal :=
  let fx := ⌊x⌋
  let fy := ⌊y⌋
  let fz := ⌊z⌋
  { heuristic := fun node =>
      distanceXZ ((fx - node.x : ℤ) : ℚ) ((fz - node.z : ℤ) : ℚ) + |((fy - node.y : ℤ) : ℚ)|
    isEnd := fun node => node.x = fx ∧ node.y = fy ∧ node.z = fz
    hasChanged := false }

/-- `new GoalInvert(goal)`: negated heuristic, negated end test. -/
def GoalInvert.make (g : SimpleGoal) : SimpleGoal :=
  { heuristic := fun node => -(g.heuristic node)
    isEnd := fun node => !(g.isEnd node)
    hasChanged := g.hasChanged }

/-- `GoalCompositeAny.prototype.heuristic`: fold of `Math.min` over the
children, seeded with `Number.MAX_VALUE`. -/
def GoalCompositeAny.heuristic (goals : List SimpleGoal) (node : Vec3I) : ℚ :=
  goals.foldl (fun m g => min m (g.heuristic node)) jsMaxValue

/-- `GoalCompositeAny.prototype.isEnd`: true iff the isEnd of some child is true
(the JS loop returns on the first true child). -/
def GoalCompositeAny.isEnd (goals : List SimpleGoal) (node : Vec3I) : Bool :=
  goals.any fun g => g.isEnd node

/-- `GoalCompositeAny.prototype.hasChanged`. -/
def GoalCompositeAny.hasChanged (goals : List SimpleGoal) : Bool :=
  goals.any fun g => g.hasChanged

/-- `GoalCompositeAll.prototype.heuristic`: fold of `Math.max` over the
children, seeded with `Number.MIN_VALUE` (sic: the smallest positive
double, not the most negative one). -/
def GoalCompositeAll.heuristic (goals : List SimpleGoal) (node : Vec3I) : ℚ :=
  goals.foldl (fun m g => max m (g.heuristic node)) jsMinValue

/-- `GoalCompositeAll.prototype.isEnd`: true iff the isEnd of every child is true
(the JS loop returns on the first false child). -/
def GoalCompositeAll.isEnd (goals : List SimpleGoal) (node : Vec3I) : Bool :=
  goals.all fun g => g.isEnd node

/-- `GoalCompositeAll.prototype.hasChanged`. -/
def GoalCompositeAll.hasChanged (goals : List SimpleGoal) : Bool :=
  goals.any fun g => g.hasChanged

/-- The state of a `GoalNear` as built by `new GoalNear(x, y, z, range)`
(coordinates floored, `rangeSq = range * range`). -/
structure GoalNearState where
  x : ℤ
  y : ℤ
  z : ℤ
  rangeSq : ℚ
deriving DecidableEq, Repr

/-- `new GoalNear(x, y, z, range)`. -/
def GoalNear.make (x y z range : ℚ) : GoalNearState :=
  ⟨⌊x⌋, ⌊y⌋, ⌊z⌋, range * range⟩

/-- `GoalNear.prototype.isEnd`: squared Euclidean distance compared
(inclusively) against `rangeSq`. -/
def GoalNear.isEnd (g : GoalNearState) (node : Vec3I) : Bool :=
  let dx := g.x - node.x
  let dy := g.y - node.y
  let dz := g.z - node.z
  ((dx * dx + dy * dy + dz * dz : ℤ) : ℚ) ≤ g.rangeSq

/-- `GoalGetToBlock.prototype.isEnd` with target `(gx, gy, gz)` (the
constructor floors the target; nodes are integer cells). -/
def GoalGetToBlock.isEnd (gx gy gz : ℤ) (node : Vec3I) : Bool :=
  let dx := node.x - gx
  let dy := node.y - gy
  let dz := node.z - gz
  dx.natAbs + (if dy < 0 then dy + 1 else dy).natAbs + dz.natAbs = 1

/-- The five purely positional goal variants (`GoalBlock`, `GoalNear`,
`GoalXZ`, `GoalY`, `GoalGetToBlock`), each carrying the constructor-floored
parameters it stores on `this`. -/
inductive PositionalGoal where
  | exactBlock (x y z : ℤ)
  | withinRadius (x y z : ℤ) (rangeSq : ℚ)
  | column (x z : ℤ)
  | altitude (y : ℤ)
  | adjacent (x y z : ℤ)
deriving DecidableEq, Repr

/-- `heuristic(node)` of each positional variant, from goals.js. -/
def PositionalGoal.heuristic : PositionalGoal → Vec3I → ℚ
  | .exactBlock x y z, node =>
    distanceXZ ((x - node.x : ℤ) : ℚ) ((z - node.z : ℤ) : ℚ) + |((y - node.y : ℤ) : ℚ)|
  | .withinRadius x y z _, node =>
    distanceXZ ((x - node.x : ℤ) : ℚ) ((z - node.z : ℤ) : ℚ) + |((y - node.y : ℤ) : ℚ)|
  | .column x z, node =>
    distanceXZ ((x - node.x : ℤ) : ℚ) ((z - node.z : ℤ) : ℚ)
  | .altitude y, node => |((y - node.y : ℤ) : ℚ)|
  | .adjacent x y z, node =>
    let dy := node.y - y
    distanceXZ ((node.x - x : ℤ) : ℚ) ((node.z - z : ℤ) : ℚ) +
      |((if dy < 0 then dy + 1 else dy : ℤ) : ℚ)|

/-- `isEnd(node)` of each positional variant, from goals.js. -/
def PositionalGoal.isEnd : PositionalGoal → Vec3I → Bool
  | .exactBlock x y z, node => node.x = x ∧ node.y = y ∧ node.z = z
  | .withinRadius x y z rangeSq, node =>
    (((x - node.x) * (x - node.x) + (y - node.y) * (y - node.y) +
      (z - node.z) * (z - node.z) : ℤ) : ℚ) ≤ rangeSq
  | .column x z, node => node.x = x ∧ node.z = z
  | .altitude y, node => node.y = y
  | .adjacent x y z, node => GoalGetToBlock.isEnd x y z node

/-- `hasChanged()` of the positional variants: none of the five classes
overrides the base `Goal.hasChanged`, which returns `false`. -/
def PositionalGoal.hasChanged : PositionalGoal → Bool := fun _ => false

/-- One method invocation on a goal, as issued by the search engine. -/
inductive GoalCall where
  | heuristicCall (node : Vec3I)
  | isEndCall (node : Vec3I)
  | hasChangedCall
deriving DecidableEq, Repr

/-- Executing one call on a positional goal: the result, paired with the
goal state after the call.  None of the three method bodies in goals.js
contains an assignment, so the state after the call is the state before. -/
def PositionalGoal.step (g : PositionalGoal) : GoalCall → PositionalGoal × (ℚ ⊕ Bool)
  | .heuristicCall n => (g, Sum.inl (g.heuristic n))
  | .isEndCall n => (g, Sum.inr (g.isEnd n))
  | .hasChangedCall => (g, Sum.inr g.hasChanged)

/-- Executing a sequence of calls, threading the goal state through. -/
def PositionalGoal.runCalls (g : PositionalGoal) : List GoalCall → PositionalGoal × List (ℚ ⊕ Bool)
  | [] => (g, [])
  | c :: cs =>
    let r := g.step c
    let rest := PositionalGoal.runCalls r.1 cs
    (rest.1, r.2 :: rest.2)

/-- The target captured on `this` by `GoalFollow` (`x`, `y`, `z`,
`rangeSq`); the live entity is passed to `hasChanged` as its current
position. -/
structure GoalFollowState where
  x : ℤ
  y : ℤ
  z : ℤ
  rangeSq : ℚ
deriving DecidableEq, Repr

/-- `new GoalFollow(entity, range)`: captures the floored position of the entity. -/
def GoalFollow.make (entityPos : Vec3Q) (range : ℚ) : GoalFollowState :=
  ⟨⌊entityPos.x⌋, ⌊entityPos.y⌋, ⌊entityPos.z⌋, range * range⟩

/-- `GoalFollow.prototype.hasChanged`, with the mutation of `this` made
explicit: returns the boolean result and the state after the call.  Reads
`this.entity.position.floored()` (here `entityPos`, the current
position of the entity), compares the squared distance to the captured target against
`rangeSq`, and re-captures the target exactly when it is exceeded. -/
def GoalFollow.hasChanged (s : GoalFollowState) (entityPos : Vec3Q) :
    Bool × GoalFollowState :=
  let p := vec3Floored entityPos
  let dx := s.x - p.x
  let dy := s.y - p.y
  let dz := s.z - p.z
  if ((dx * dx + dy * dy + dz * dz : ℤ) : ℚ) > s.rangeSq then
    (true, { s with x := p.x, y := p.y, z := p.z })
  else
    (false, s)

/-- `Array.prototype.indexOf` on a list of strings: index of the first
occurrence, `-1` when absent. -/
def jsIndexOf : List String → String → ℤ
  | [], _ => -1
  | a :: rest, s =>
    if a = s then 0
    else
      let r := jsIndexOf rest s
      if r = -1 then -1 else r + 1

/-- The facing-name table of the `GoalPlaceBlock` constructor. -/
def facingNames : List String := ["north", "east", "south", "west", "up", "down"]

/-- `if (!this.options.range) this.options.range = 5` — the presence test
is JS truthiness, so an absent range and a range of `0` (both falsy) are
replaced by the default 5. -/
def normalizeRange : Option ℚ → ℚ
  | none => 5
  | some v => if v = 0 then 5 else v

/-- `if (!("LOS" in this.options)) this.options.LOS = true` — the presence
test is the `in` operator, so any present value (including `false`) is
kept and only an absent key defaults to `true`. -/
def normalizeLOS : Option Bool → Bool
  | none => true
  | some b => b

/-- `Math.atan2(y, x)`: the argument of the complex number `x + y*i`, in
`(-π, π]`.  `Math.atan2(0, 0) = 0` matches `Complex.arg 0 = 0`. -/
noncomputable def jsAtan2 (y x : ℝ) : ℝ := Complex.arg ⟨x, y⟩

/-- The horizontal facing bucket computed by `checkFacing`:
`Math.floor(angle / 90 + 0.5) & 0x3` with
`angle = Math.atan2(dir.x, -dir.z) * 180 / Math.PI + 180`.
Since `atan2` lands in `(-π, π]`, `angle` lies in `(0, 360]` and the floor
lies in `{0, ..., 4}`, so the JS bit-mask `& 0x3` coincides with `% 4`. -/
noncomputable def horizFacing (dir : Vec3R) : ℤ :=
  ⌊(jsAtan2 dir.x (-dir.z) * 180 / Real.pi + 180) / 90 + 1 / 2⌋ % 4

open Classical in
/-- `GoalPlaceBlock.prototype.checkFacing` as a predicate on the eye-to-target
vector `dir`.  `facing` is the integer stored by the constructor
(`indexOf` of the facing string in the name table below,
so `-1` when the string is unrecognized or absent). -/
noncomputable def checkFacing (facing : ℤ) (facing3D : Bool) (dir : Vec3R) : Prop :=
  if facing < 0 then True
  else
    let dH := Real.sqrt (dir.x * dir.x + dir.z * dir.z)
    let vAngle := jsAtan2 dir.y dH * 180 / Real.pi
    if facing3D = true ∧ vAngle > 45 then facing = 4
    else if facing3D = true ∧ vAngle < -45 then facing = 5
    else facing = horizFacing dir

/-- The result record of `World.raycast` (external collaborator): the hit
integer position of the hit block and the index of the hit face. -/
structure RayHit where
  position : Vec3I
  face : ℕ
deriving DecidableEq, Repr

/-- One entry `[dir, center.add(ref), ref]` of `this.facesPos`: the face
direction, the continuous click-target point, and the reference block. -/
structure FaceCand where
  face : Vec3I
  toPoint : Vec3R
  ref : Vec3I

/-- The placement options after constructor normalization: `range`,
`facing` (an index, `-1` for unconstrained), `facing3D`, `LOS`. -/
structure PlaceOptions where
  range : ℝ
  facing : ℤ
  facing3D : Bool
  LOS : Bool

/-- `vectorToDirection(v)` from goals.js: face index of an axis direction;
the JS function falls off the end (returns `undefined`, here `none`) on
the zero vector. -/
def vectorToDirection (v : Vec3I) : Option ℕ :=
  if v.y < 0 then some 0
  else if v.y > 0 then some 1
  else if v.z < 0 then some 2
  else if v.z > 0 then some 3
  else if v.x < 0 then some 4
  else if v.x > 0 then some 5
  else none

/-- `v.scaled(-1)` on an integer vector. -/
def vneg (v : Vec3I) : Vec3I := ⟨-v.x, -v.y, -v.z⟩

/-- `a.minus(b)` on continuous vectors. -/
def vsub (a b : Vec3R) : Vec3R := ⟨a.x - b.x, a.y - b.y, a.z - b.z⟩

/-- `v.norm()` from the vec3 collaborator library. -/
noncomputable def vnorm (v : Vec3R) : ℝ :=
  Real.sqrt (v.x * v.x + v.y * v.y + v.z * v.z)

/-- `v.normalize()` from the vec3 collaborator library (componentwise
division by the norm; on the zero vector the library returns the zero
vector, which is also what division by zero yields in `ℝ`). -/
noncomputable def vnormalize (v : Vec3R) : Vec3R :=
  ⟨v.x / vnorm v, v.y / vnorm v, v.z / vnorm v⟩

open Classical in
/-- `GoalPlaceBlock.prototype.getFaceAndRef`, over the frozen candidate
list `this.facesPos` (built at construction from the external shape
geometry) and an abstract `World.raycast` collaborator.  Candidates are
scanned in order; a candidate is skipped when it is out of range or fails
`checkFacing`; with `LOS` off the first remaining candidate is returned;
with `LOS` on it is returned only when the raycast hit lands on the
reference block of the candidate with the face index of the opposite of its
face direction. -/
noncomputable def getFaceAndRef (opts : PlaceOptions)
    (raycast : Vec3R → Vec3R → ℝ → Option RayHit) :
    List FaceCand → Vec3R → Option FaceCand
  | [], _ => none
  | c :: rest, headPos =>
    let dir := vsub c.toPoint headPos
    if vnorm dir > opts.range then getFaceAndRef opts raycast rest headPos
    else if ¬ checkFacing opts.facing opts.facing3D dir then
      getFaceAndRef opts raycast rest headPos
    else if opts.LOS = false then some c
    else
      match raycast headPos (vnormalize dir) opts.range with
      | some hit =>
        if hit.position = c.ref ∧ some hit.face = vectorToDirection (vneg c.face) then some c
        else getFaceAndRef opts raycast rest headPos
      | none => getFaceAndRef opts raycast rest headPos

/-! ## Theorems -/

/-- Claim C10: with an empty child list, `GoalCompositeAll.isEnd` is true
(vacuous conjunction) and `GoalCompositeAny.isEnd` is false, at every node. -/
theorem composite_empty_isEnd (node : Vec3I) :
    GoalCompositeAll.isEnd [] node = true ∧ GoalCompositeAny.isEnd [] node = false :=
  ⟨rfl, rfl⟩

/-- Claim C9: a `GoalPlaceBlock` range of `0` is falsy and is replaced by
the default 5, while `LOS: false` survives because presence is tested with
the `in` operator; absent values get their defaults. -/
theorem placeOptions_defaults :
    normalizeRange (some 0) = 5 ∧ normalizeLOS (some false) = false ∧
    normalizeRange none = 5 ∧ normalizeLOS none = true := by
  refine ⟨?_, rfl, rfl, rfl⟩
  simp [normalizeRange]

/-- Claim C7: `GoalNear.isEnd` holds exactly when the squared Euclidean
distance from the node to the floored center is at most `range * range`
(inclusive boundary); in particular with range 3 a node at squared
distance exactly 9 satisfies it and a node at distance 4 does not. -/
theorem goalNear_isEnd_iff (x y z range : ℚ) (node : Vec3I) :
    (GoalNear.isEnd (GoalNear.make x y z range) node = true ↔
      (((⌊x⌋ - node.x) * (⌊x⌋ - node.x) + (⌊y⌋ - node.y) * (⌊y⌋ - node.y) +
        (⌊z⌋ - node.z) * (⌊z⌋ - node.z) : ℤ) : ℚ) ≤ range * range) ∧
    GoalNear.isEnd (GoalNear.make 0 0 0 3) ⟨3, 0, 0⟩ = true ∧
    GoalNear.isEnd (GoalNear.make 0 0 0 3) ⟨0, 4, 0⟩ = false := by
  refine ⟨?_, ?_, ?_⟩
  · simp [GoalNear.isEnd, GoalNear.make]
  · norm_num [GoalNear.isEnd, GoalNear.make]
  · norm_num [GoalNear.isEnd, GoalNear.make]

/-- Claim C5: `GoalFollow.hasChanged` compares the squared distance from
the captured target to the current floored position of the entity against
`rangeSq`: beyond it, it returns true and re-captures the target; otherwise
it returns false and leaves the state untouched. -/
theorem goalFollow_hasChanged_spec (s : GoalFollowState) (pos : Vec3Q) :
    ((GoalFollow.hasChanged s pos).1 = true ↔
      (((s.x - (vec3Floored pos).x) * (s.x - (vec3Floored pos).x) +
        (s.y - (vec3Floored pos).y) * (s.y - (vec3Floored pos).y) +
        (s.z - (vec3Floored pos).z) * (s.z - (vec3Floored pos).z) : ℤ) : ℚ) > s.rangeSq) ∧
    ((((s.x - (vec3Floored pos).x) * (s.x - (vec3Floored pos).x) +
        (s.y - (vec3Floored pos).y) * (s.y - (vec3Floored pos).y) +
        (s.z - (vec3Floored pos).z) * (s.z - (vec3Floored pos).z) : ℤ) : ℚ) > s.rangeSq →
      (GoalFollow.hasChanged s pos).2 =
        ⟨(vec3Floored pos).x, (vec3Floored pos).y, (vec3Floored pos).z, s.rangeSq⟩) ∧
    (¬ (((s.x - (vec3Floored pos).x) * (s.x - (vec3Floored pos).x) +
        (s.y - (vec3Floored pos).y) * (s.y - (vec3Floored pos).y) +
        (s.z - (vec3Floored pos).z) * (s.z - (vec3Floored pos).z) : ℤ) : ℚ) > s.rangeSq →
      (GoalFollow.hasChanged s pos).2 = s) := by
  by_cases h : (((s.x - (vec3Floored pos).x) * (s.x - (vec3Floored pos).x) +
      (s.y - (vec3Floored pos).y) * (s.y - (vec3Floored pos).y) +
      (s.z - (vec3Floored pos).z) * (s.z - (vec3Floored pos).z) : ℤ) : ℚ) > s.rangeSq
  · refine ⟨?_, fun _ => ?_, fun hn => absurd h hn⟩
    · simp only [GoalFollow.hasChanged]
      rw [if_pos h]
      exact iff_of_true rfl h
    · simp only [GoalFollow.hasChanged]
      rw [if_pos h]
  · refine ⟨?_, fun hc => absurd hc h, fun _ => ?_⟩
    · simp only [GoalFollow.hasChanged]
      rw [if_neg h]
      exact iff_of_false (by simp) h
    · simp only [GoalFollow.hasChanged]
      rw [if_neg h]

/-- Claim C5 witness: target (0,0,0), range² = 9, entity moved to
x = 4.2 (floored 4, squared distance 16 > 9): returns true and re-captures. -/
theorem goalFollow_hasChanged_witness :
    (GoalFollow.hasChanged ⟨0, 0, 0, 9⟩ ⟨21 / 5, 0, 0⟩).2 = ⟨4, 0, 0, 9⟩ ∧
    (GoalFollow.hasChanged ⟨0, 0, 0, 9⟩ ⟨21 / 5, 0, 0⟩).1 = true := by
  have hfl : vec3Floored ⟨21 / 5, 0, 0⟩ = (⟨4, 0, 0⟩ : Vec3I) := by
    have h4 : ⌊(21 / 5 : ℚ)⌋ = 4 := by
      rw [Int.floor_eq_iff]
      norm_num
    simp [vec3Floored, h4]
  have H := goalFollow_hasChanged_spec ⟨0, 0, 0, 9⟩ ⟨21 / 5, 0, 0⟩
  rw [hfl] at H
  exact ⟨H.2.1 (by norm_num), H.1.mpr (by norm_num)⟩

/-- Auxiliary: a call sequence on a positional goal leaves the goal intact
and each result is a function of the initial goal and the call alone. -/
lemma positionalGoal_runCalls_eq (g : PositionalGoal) (cs : List GoalCall) :
    g.runCalls cs = (g, cs.map fun c => (g.step c).2) := by
  induction cs with
  | nil => rfl
  | cons c cs ih => cases c <;> simp [PositionalGoal.runCalls, PositionalGoal.step, ih]

/-- Claim C8: every sequence of `heuristic` / `isEnd` / `hasChanged` calls
on a positional goal leaves the state of the goal unchanged, every result
depends only on the initial state and the call (so re-invocations on the
same node agree), and `hasChanged` is constantly false. -/
theorem positionalGoal_stateless (g : PositionalGoal) (cs : List GoalCall) :
    (g.runCalls cs).1 = g ∧
    (g.runCalls cs).2 = cs.map (fun c => (g.step c).2) ∧
    g.hasChanged = false ∧
    (g.step .hasChangedCall).2 = Sum.inr false := by
  rw [positionalGoal_runCalls_eq]
  exact ⟨rfl, rfl, rfl, rfl⟩

/-- Claim C3 counterexample: node (1,−1,0) satisfies
`GoalGetToBlock(0,0,0).isEnd` yet is not one of the 6 face-adjacent cells
(±1 in one axis, 0 in the other two), so `isEnd` does not hold for
"exactly the 6" face-adjacent nodes. -/
theorem goalGetToBlock_six_counterexample :
    GoalGetToBlock.isEnd 0 0 0 ⟨1, -1, 0⟩ = true ∧
    (⟨1, -1, 0⟩ : Vec3I) ∉
      ([⟨1, 0, 0⟩, ⟨-1, 0, 0⟩, ⟨0, 1, 0⟩, ⟨0, -1, 0⟩, ⟨0, 0, 1⟩, ⟨0, 0, -1⟩] : List Vec3I) := by
  decide

/-- Claim C3 (amended): `GoalGetToBlock(0,0,0).isEnd` holds for exactly the
10 nodes whose adjusted displacement (dy < 0 replaced by dy + 1) is a unit
vector: the 8 nodes with dy ∈ {0, −1} horizontally face-adjacent, plus
(0,1,0) and (0,−2,0); it is false for the target itself and for every
other node. -/
theorem goalGetToBlock_isEnd_characterization (node : Vec3I) :
    GoalGetToBlock.isEnd 0 0 0 node = true ↔
      node ∈ ([⟨1, 0, 0⟩, ⟨-1, 0, 0⟩, ⟨0, 0, 1⟩, ⟨0, 0, -1⟩,
               ⟨1, -1, 0⟩, ⟨-1, -1, 0⟩, ⟨0, -1, 1⟩, ⟨0, -1, -1⟩,
               ⟨0, 1, 0⟩, ⟨0, -2, 0⟩] : List Vec3I) := by
  obtain ⟨nx, ny, nz⟩ := node
  simp only [GoalGetToBlock.isEnd, List.mem_cons, List.not_mem_nil, or_false,
    decide_eq_true_eq, Vec3I.mk.injEq]
  split_ifs with h <;> omega

/-- Claim C1: at node (1,0,0), an AllOf composite whose only child is
`GoalInvert(GoalBlock(0,0,0))` reports heuristic `Number.MIN_VALUE`
(2⁻¹⁰⁷⁴, the fold seed, the smallest *positive* double) although the
maximum of the heuristics of the children is −1: the fold seed should have been
−Infinity for the intended max semantics. -/
theorem compositeAll_heuristic_minValue_bug :
    GoalCompositeAll.heuristic [GoalInvert.make (GoalBlock.make 0 0 0)] ⟨1, 0, 0⟩ = jsMinValue ∧
    (GoalInvert.make (GoalBlock.make 0 0 0)).heuristic ⟨1, 0, 0⟩ = -1 ∧
    jsMinValue ≠ -1 := by
  have hchild : (GoalInvert.make (GoalBlock.make 0 0 0)).heuristic ⟨1, 0, 0⟩ = -1 := by
    simp [GoalInvert.make, GoalBlock.make, distanceXZ, min_def]
  have hfold : GoalCompositeAll.heuristic [GoalInvert.make (GoalBlock.make 0 0 0)] ⟨1, 0, 0⟩ =
      max jsMinValue (-1) := by
    simp [GoalCompositeAll.heuristic, hchild]
  refine ⟨?_, hchild, by norm_num [jsMinValue]⟩
  rw [hfold, max_eq_left (by norm_num [jsMinValue] : (-1 : ℚ) ≤ jsMinValue)]

/-- Auxiliary: `Array.prototype.indexOf` returns `-1` on a missing element. -/
lemma jsIndexOf_eq_neg_one {s : String} {l : List String} (h : s ∉ l) :
    jsIndexOf l s = -1 := by
  induction l with
  | nil => rfl
  | cons a rest ih =>
    simp only [List.mem_cons, not_or] at h
    simp [jsIndexOf, show ¬(a = s) from fun e => h.1 e.symm, ih h.2]

/-- Claim C6: a facing string outside the six recognized names makes the
constructor store the sentinel `-1` (from `indexOf`), no error is raised,
and with that sentinel `checkFacing` accepts every direction vector. -/
theorem goalPlaceBlock_unrecognized_facing (s : String) (h : s ∉ facingNames) :
    jsIndexOf facingNames s = -1 ∧
    ∀ (facing3D : Bool) (dir : Vec3R), checkFacing (jsIndexOf facingNames s) facing3D dir := by
  have hidx := jsIndexOf_eq_neg_one h
  refine ⟨hidx, fun f3d dir => ?_⟩
  rw [hidx]
  unfold checkFacing
  norm_num

/-- Claim C6 witness: the unrecognized facing string "behind". -/
theorem goalPlaceBlock_unrecognized_facing_witness :
    jsIndexOf facingNames "behind" = -1 ∧
    checkFacing (jsIndexOf facingNames "behind") false ⟨1, 2, 3⟩ := by
  have H := goalPlaceBlock_unrecognized_facing "behind" (by decide)
  exact ⟨H.1, H.2 false ⟨1, 2, 3⟩⟩

/-- Claim C4: with `LOS` on, `getFaceAndRef` (first conjunct) returns a
candidate only when the raycast from the eye along the normalized
eye-to-target vector reports a hit whose position is the reference
block of the candidate and whose face is the face index of the opposite
of the direction of the candidate; and (second conjunct) an in-range, facing-accepted
candidate whose raycast hit matches exactly is accepted. -/
theorem getFaceAndRef_LOS_raycast_gate (opts : PlaceOptions)
    (raycast : Vec3R → Vec3R → ℝ → Option RayHit) (headPos : Vec3R)
    (hLOS : opts.LOS = true) :
    (∀ (cands : List FaceCand) (c : FaceCand),
      getFaceAndRef opts raycast cands headPos = some c →
      ∃ hit, raycast headPos (vnormalize (vsub c.toPoint headPos)) opts.range = some hit ∧
        hit.position = c.ref ∧ some hit.face = vectorToDirection (vneg c.face)) ∧
    (∀ (c : FaceCand) (rest : List FaceCand) (hit : RayHit),
      ¬ vnorm (vsub c.toPoint headPos) > opts.range →
      checkFacing opts.facing opts.facing3D (vsub c.toPoint headPos) →
      raycast headPos (vnormalize (vsub c.toPoint headPos)) opts.range = some hit →
      hit.position = c.ref →
      some hit.face = vectorToDirection (vneg c.face) →
      getFaceAndRef opts raycast (c :: rest) headPos = some c) := by
  constructor
  · intro cands
    induction cands with
    | nil =>
      intro c h
      simp [getFaceAndRef] at h
    | cons a rest ih =>
      intro c h
      simp only [getFaceAndRef] at h
      by_cases h1 : vnorm (vsub a.toPoint headPos) > opts.range
      · rw [if_pos h1] at h
        exact ih c h
      · rw [if_neg h1] at h
        by_cases h2 : checkFacing opts.facing opts.facing3D (vsub a.toPoint headPos)
        · rw [if_neg (not_not_intro h2),
            if_neg (show ¬(opts.LOS = false) by simp [hLOS])] at h
          rcases hray : raycast headPos (vnormalize (vsub a.toPoint headPos)) opts.range with
            _ | hit
          · rw [hray] at h
            exact ih c h
          · rw [hray] at h
            dsimp only at h
            by_cases h4 : hit.position = a.ref ∧ some hit.face = vectorToDirection (vneg a.face)
            · rw [if_pos h4] at h
              obtain rfl : a = c := Option.some.inj h
              exact ⟨hit, hray, h4.1, h4.2⟩
            · rw [if_neg h4] at h
              exact ih c h
        · rw [if_pos h2] at h
          exact ih c h
  · intro c rest hit h1 h2 hray hpos hface
    simp only [getFaceAndRef]
    rw [if_neg h1, if_neg (not_not_intro h2),
      if_neg (show ¬(opts.LOS = false) by simp [hLOS]), hray]
    dsimp only
    rw [if_pos ⟨hpos, hface⟩]

/-- Concrete placement options for the C4 witness: range 5, unconstrained
facing, `LOS` on. -/
noncomputable def losOpts : PlaceOptions := ⟨5, -1, false, true⟩

/-- Concrete face candidate for the C4 witness: anchor (0,0,0), face
direction (0,0,1), reference block (0,0,1), click target the block
center-of-face point (0,0,1). -/
noncomputable def losCand : FaceCand := ⟨⟨0, 0, 1⟩, ⟨0, 0, 1⟩, ⟨0, 0, 1⟩⟩

/-- Concrete raycast collaborator for the C4 witness: always reports a hit
on block (0,0,1) with face index 2 (the −z face, the one being clicked). -/
noncomputable def losRaycast : Vec3R → Vec3R → ℝ → Option RayHit :=
  fun _ _ _ => some ⟨⟨0, 0, 1⟩, 2⟩

/-- Claim C4 witness: from eye (0,0,0) the candidate is in range, the
matching raycast hit is accepted, and the accepted candidate satisfies the
raycast gate. -/
theorem getFaceAndRef_LOS_raycast_gate_witness :
    getFaceAndRef losOpts losRaycast [losCand] ⟨0, 0, 0⟩ = some losCand ∧
    ∃ hit, losRaycast ⟨0, 0, 0⟩ (vnormalize (vsub losCand.toPoint ⟨0, 0, 0⟩)) losOpts.range =
        some hit ∧
      hit.position = losCand.ref ∧ some hit.face = vectorToDirection (vneg losCand.face) := by
  have H := getFaceAndRef_LOS_raycast_gate losOpts losRaycast ⟨0, 0, 0⟩ rfl
  have hnorm : vnorm (vsub losCand.toPoint ⟨0, 0, 0⟩) = 1 := by
    simp [vnorm, vsub, losCand, Real.sqrt_one]
  have hr : ¬ vnorm (vsub losCand.toPoint ⟨0, 0, 0⟩) > losOpts.range := by
    rw [hnorm]
    norm_num [losOpts]
  have hf : checkFacing losOpts.facing losOpts.facing3D (vsub losCand.toPoint ⟨0, 0, 0⟩) := by
    unfold checkFacing losOpts
    norm_num
  have acc := H.2 losCand [] ⟨⟨0, 0, 1⟩, 2⟩ hr hf rfl rfl (by decide)
  exact ⟨acc, H.1 [losCand] losCand acc⟩

/-- Auxiliary: for a horizontal vector pointing within 45° of the +z axis
(`0 < z`, `|x| < z`), the bucket computed by `checkFacing` is 0 (the
bucket the constructor assigns to the facing name `north`). -/
lemma horizFacing_eq_zero_of (x z : ℝ) (hz : 0 < z) (hx : |x| < z) :
    horizFacing (⟨x, 0, z⟩ : Vec3R) = 0 := by
  have hπ := Real.pi_pos
  have hxlt : x < z := (abs_lt.mp hx).2
  have hxgt : -z < x := (abs_lt.mp hx).1
  have hr2 : Complex.abs ⟨-z, x⟩ ^ 2 = z ^ 2 + x ^ 2 := by
    rw [Complex.sq_abs, Complex.normSq_mk]
    ring
  have hrpos : 0 < Complex.abs ⟨-z, x⟩ := by
    rcases (Complex.abs.nonneg (⟨-z, x⟩ : ℂ)).lt_or_eq with h | h
    · exact h
    · exfalso
      rw [← h] at hr2
      nlinarith [sq_nonneg x, mul_pos hz hz]
  have hxsq : x ^ 2 < z ^ 2 := by
    nlinarith [abs_nonneg x, sq_abs x]
  have habs : |x| / Complex.abs ⟨-z, x⟩ < Real.sqrt 2 / 2 := by
    rw [div_lt_div_iff₀ hrpos two_pos]
    have h1 : 0 ≤ Real.sqrt 2 * Complex.abs ⟨-z, x⟩ :=
      mul_nonneg (Real.sqrt_nonneg 2) hrpos.le
    have h2 : (|x| * 2) ^ 2 < (Real.sqrt 2 * Complex.abs ⟨-z, x⟩) ^ 2 := by
      rw [mul_pow, mul_pow, Real.sq_sqrt (by norm_num : (0 : ℝ) ≤ 2), sq_abs, hr2]
      nlinarith
    exact lt_of_pow_lt_pow_left₀ 2 h1 h2
  have key : (3 * Real.pi / 4 < jsAtan2 x (-z) ∧ jsAtan2 x (-z) ≤ Real.pi) ∨
      (-Real.pi < jsAtan2 x (-z) ∧ jsAtan2 x (-z) < -(3 * Real.pi / 4)) := by
    rcases le_or_lt 0 x with hx0 | hx0
    · left
      have harg : jsAtan2 x (-z) =
          Real.arcsin (-x / Complex.abs ⟨-z, x⟩) + Real.pi := by
        have h := Complex.arg_of_re_neg_of_im_nonneg
          (x := (⟨-z, x⟩ : ℂ)) (by simpa using hz) hx0
        exact h
      have ht0 : -x / Complex.abs ⟨-z, x⟩ ≤ 0 := by
        rw [div_nonpos_iff]
        right
        constructor <;> linarith
      have ha2 : Real.arcsin (-x / Complex.abs ⟨-z, x⟩) ≤ 0 :=
        Real.arcsin_nonpos.mpr ht0
      have ha1 : -(Real.pi / 4) < Real.arcsin (-x / Complex.abs ⟨-z, x⟩) := by
        by_contra hc
        push_neg at hc
        have hneg : Real.pi / 4 ≤ Real.arcsin (x / Complex.abs ⟨-z, x⟩) := by
          have h := neg_le_neg hc
          rwa [neg_neg, ← Real.arcsin_neg, neg_div, neg_neg] at h
        have hge := Real.pi_div_four_le_arcsin.mp hneg
        have hxr : x / Complex.abs ⟨-z, x⟩ ≤ |x| / Complex.abs ⟨-z, x⟩ :=
          (div_le_div_iff_of_pos_right hrpos).mpr (le_abs_self x)
        linarith
      rw [harg]
      constructor <;> linarith
    · right
      have harg : jsAtan2 x (-z) =
          Real.arcsin (-x / Complex.abs ⟨-z, x⟩) - Real.pi := by
        have h := Complex.arg_of_re_neg_of_im_neg
          (x := (⟨-z, x⟩ : ℂ)) (by simpa using hz) hx0
        exact h
      have ha1 : 0 < Real.arcsin (-x / Complex.abs ⟨-z, x⟩) :=
        Real.arcsin_pos.mpr (div_pos (by linarith) hrpos)
      have ha2 : Real.arcsin (-x / Complex.abs ⟨-z, x⟩) < Real.pi / 4 := by
        by_contra hc
        push_neg at hc
        have hge := Real.pi_div_four_le_arcsin.mp hc
        have hxr : -x / Complex.abs ⟨-z, x⟩ ≤ |x| / Complex.abs ⟨-z, x⟩ :=
          (div_le_div_iff_of_pos_right hrpos).mpr (neg_le_abs x)
        linarith
      rw [harg]
      constructor <;> linarith
  rw [horizFacing]
  dsimp only
  have he : (jsAtan2 x (-z) * 180 / Real.pi + 180) / 90 + 1 / 2 =
      jsAtan2 x (-z) * 2 / Real.pi + 5 / 2 := by
    field_simp
    ring
  rw [he]
  rcases key with ⟨h1, h2⟩ | ⟨h1, h2⟩
  · have hu1 : (3 : ℝ) / 2 < jsAtan2 x (-z) * 2 / Real.pi := by
      rw [lt_div_iff₀ hπ]
      nlinarith
    have hu2 : jsAtan2 x (-z) * 2 / Real.pi ≤ 2 := by
      rw [div_le_iff₀ hπ]
      nlinarith
    have hfl : ⌊jsAtan2 x (-z) * 2 / Real.pi + 5 / 2⌋ = 4 := by
      rw [Int.floor_eq_iff]
      constructor
      · push_cast
        linarith
      · push_cast
        linarith
    rw [hfl]
    decide
  · have hu1 : (-2 : ℝ) < jsAtan2 x (-z) * 2 / Real.pi := by
      rw [lt_div_iff₀ hπ]
      nlinarith
    have hu2 : jsAtan2 x (-z) * 2 / Real.pi < -(3 : ℝ) / 2 := by
      rw [div_lt_iff₀ hπ]
      nlinarith
    have hfl : ⌊jsAtan2 x (-z) * 2 / Real.pi + 5 / 2⌋ = 0 := by
      rw [Int.floor_eq_iff]
      constructor
      · push_cast
        linarith
      · push_cast
        linarith
    rw [hfl]
    decide

/-- Claim C2 counterexample: the horizontal vector (0,0,−1) points exactly
at the −z axis (bearing 0° of geographic north), yet `checkFacing` with
facing `north` (index 0) and `facing3D` off rejects it: the
`+180°` shift of the code puts a −z-pointing vector in bucket 2, not bucket 0. -/
theorem checkFacing_north_rejects_minus_z :
    ¬ checkFacing 0 false (⟨0, 0, -1⟩ : Vec3R) := by
  have harg : jsAtan2 (0 : ℝ) (-(-1 : ℝ)) = 0 := by
    have h1 : ((⟨-(-1 : ℝ), (0 : ℝ)⟩ : ℂ)) = 1 := by
      apply Complex.ext <;> norm_num
    rw [jsAtan2, h1, Complex.arg_one]
  have hb : horizFacing (⟨0, 0, -1⟩ : Vec3R) = 2 := by
    rw [horizFacing]
    dsimp only
    rw [harg]
    have he : ((0 : ℝ) * 180 / Real.pi + 180) / 90 + 1 / 2 = 5 / 2 := by
      rw [zero_mul, zero_div, zero_add]
      norm_num
    rw [he]
    have hfl : ⌊(5 / 2 : ℝ)⌋ = 2 := by
      rw [Int.floor_eq_iff]
      constructor <;> norm_num
    rw [hfl]
    decide
  unfold checkFacing
  rw [if_neg (by norm_num : ¬ (0 : ℤ) < 0)]
  simp [hb]

/-- Claim C2 (amended): with facing `north` (constructor index 0) and
`facing3D=false`, `checkFacing` accepts every horizontal direction vector
whose bearing lies within (−45°,45°) of the +z axis — the direction
opposite geographic north, because the `+180°` shift in the bucket formula
aligns the `north` bucket with +z-pointing look vectors (the front of the
placed block then faces north, toward the player). -/
theorem checkFacing_north_accepts (x z : ℝ) (hz : 0 < z) (hx : |x| < z) :
    checkFacing 0 false (⟨x, 0, z⟩ : Vec3R) := by
  have hb := horizFacing_eq_zero_of x z hz hx
  unfold checkFacing
  rw [if_neg (by norm_num : ¬ (0 : ℤ) < 0)]
  simp [hb]

/-- Claim C2 witness: the straight-ahead +z vector (0,0,1) is accepted for
facing `north`. -/
theorem checkFacing_north_accepts_witness :
    checkFacing 0 false (⟨0, 0, 1⟩ : Vec3R) :=
  checkFacing_north_accepts 0 1 (by norm_num) (by norm_num)
